import Mathlib

/-!
Verification of the session-lifecycle server of the quiz repository.

The data model and every operation are translated from `src/server.js` and
`fileStore.js`: a process-wide mapping from session code to session record,
mutated in place by socket handlers, persisted and broadcast through a shared
`broadcast` helper.  Handlers become pure functions from the store (plus the
payload and the values produced by the `nanoid` generator and the clock) to a
new store together with the list of emitted effects, in emission order.
-/

namespace Quiz

/-- A player record: `{ id, nickname, score, isHost }` in `server.js`. -/
structure Player where
  id : String
  nickname : String
  score : Int
  isHost : Bool
deriving Repr, DecidableEq

/-- A session record as built by the `createSession` handler. `createdAt` is
the millisecond timestamp that `new Date(s.createdAt).getTime()` recovers. -/
structure Session where
  code : String
  name : String
  hostPlayerId : String
  players : List Player
  createdAt : Int
  isActive : Bool
deriving Repr, DecidableEq

/-- The process-wide `sessions` object: an ordered association of code to
session record, mirroring a JS object's insertion-ordered keys. -/
abbrev Store := List (String × Session)

/-- Reading `sessions[code]`: the value at the first matching key, if any. -/
def Store.get (st : Store) (code : String) : Option Session :=
  (st.find? (fun e => e.1 == code)).map (fun e => e.2)

/-- Assignment `sessions[code] = s`: overwrite the first matching key in place, or append
a new entry, as JS object assignment does. -/
def Store.set (st : Store) (code : String) (s : Session) : Store :=
  match st with
  | [] => [(code, s)]
  | e :: rest => if e.1 == code then (code, s) :: rest else e :: Store.set rest code s

/-- Messages emitted to the whole room (`io.to(code).emit(...)`). The
`sessionUpdate` payload is `sessions[code]` as read at emission time. -/
inductive RoomMsg where
  | sessionUpdate (s : Option Session)
  | sessionStarted
deriving Repr, DecidableEq

/-- Messages emitted to the originating socket only (`socket.emit(...)`). -/
inductive CallerMsg where
  | createSessionResponse (s : Session) (p : Player)
  | joinSessionResponse (s : Session) (p : Player)
  | rejoinSessionResponse (s : Session) (p : Player)
  | errorMsg (m : String)
deriving Repr, DecidableEq

/-- One observable side effect of a handler, in emission order. -/
inductive Effect where
  | save (st : Store)
  | roomEmit (code : String) (m : RoomMsg)
  | callerEmit (m : CallerMsg)
deriving Repr, DecidableEq

/-- Helper `broadcast(code)`: persist the whole store, then emit `sessionUpdate` with
the current record for `code` to the room. -/
def broadcast (st : Store) (code : String) : List Effect :=
  [Effect.save st, Effect.roomEmit code (RoomMsg.sessionUpdate (st.get code))]

/-- Model of JS `String.prototype.toUpperCase()` on the ASCII `nanoid`
alphabet: uppercase every character. -/
def jsToUpper (s : String) : String :=
  String.mk (s.data.map Char.toUpper)

/-- The `createSession` handler.  `rawCode` and `playerId` stand for the two
`nanoid` draws, `now` for the clock; the stored code is `rawCode` after
`.toUpperCase()`. -/
def createSession (st : Store) (nickname sessionName rawCode playerId : String)
    (now : Int) : Store × List Effect :=
  let code := jsToUpper rawCode
  let player : Player := { id := playerId, nickname := nickname, score := 0, isHost := true }
  let session : Session :=
    { code := code, name := sessionName, hostPlayerId := playerId,
      players := [player], createdAt := now, isActive := false }
  let st₁ := st.set code session
  (st₁, Effect.callerEmit (CallerMsg.createSessionResponse session player) :: broadcast st₁ code)

/-- The `joinSession` handler.  `playerId` stands for the `nanoid` draw made
on the success path. -/
def joinSession (st : Store) (code nickname playerId : String) : Store × List Effect :=
  match st.get code with
  | none => (st, [Effect.callerEmit (CallerMsg.errorMsg "Session not found or already started")])
  | some session =>
    if session.isActive then
      (st, [Effect.callerEmit (CallerMsg.errorMsg "Session not found or already started")])
    else
      let player : Player := { id := playerId, nickname := nickname, score := 0, isHost := false }
      let session₁ := { session with players := session.players ++ [player] }
      let st₁ := st.set code session₁
      (st₁, Effect.callerEmit (CallerMsg.joinSessionResponse session₁ player) :: broadcast st₁ code)

/-- Update the first player whose id matches, as JS `players.find(...)`
followed by in-place mutation of the found element does. -/
def updateFirst (ps : List Player) (pid : String) (f : Player → Player) : List Player :=
  match ps with
  | [] => []
  | p :: rest => if p.id == pid then f p :: rest else p :: updateFirst rest pid f

/-- The `rejoinSession` handler. -/
def rejoinSession (st : Store) (code playerId nickname : String) : Store × List Effect :=
  match st.get code with
  | none => (st, [])
  | some session =>
    match session.players.find? (fun p => p.id == playerId) with
    | none =>
      let player : Player :=
        { id := playerId, nickname := nickname, score := 0,
          isHost := playerId == session.hostPlayerId }
      let session₁ := { session with players := session.players ++ [player] }
      let st₁ := st.set code session₁
      (st₁, Effect.save st₁
        :: Effect.callerEmit (CallerMsg.rejoinSessionResponse session₁ player)
        :: broadcast st₁ code)
    | some found =>
      let refresh : Player → Player := fun p =>
        { p with isHost := playerId == session.hostPlayerId, nickname := nickname }
      let player := refresh found
      let session₁ :=
        { session with players := updateFirst session.players playerId refresh }
      let st₁ := st.set code session₁
      (st₁, Effect.save st₁
        :: Effect.callerEmit (CallerMsg.rejoinSessionResponse session₁ player)
        :: broadcast st₁ code)

/-- The `startSession` handler. -/
def startSession (st : Store) (code : String) : Store × List Effect :=
  match st.get code with
  | none => (st, [])
  | some session =>
    if session.isActive then (st, [])
    else
      let st₁ := st.set code { session with isActive := true }
      (st₁, broadcast st₁ code ++ [Effect.roomEmit code RoomMsg.sessionStarted])

/-- The `updateScore` handler. -/
def updateScore (st : Store) (code playerId : String) (score : Int) : Store × List Effect :=
  match st.get code with
  | none => (st, [])
  | some session =>
    if session.isActive then
      match session.players.find? (fun p => p.id == playerId) with
      | none => (st, [])
      | some _ =>
        let setScore : Player → Player := fun p => { p with score := score }
        let session₁ :=
          { session with players := updateFirst session.players playerId setScore }
        let st₁ := st.set code session₁
        (st₁, broadcast st₁ code)
    else (st, [])

/-- The `leaveSession` handler. -/
def leaveSession (st : Store) (code playerId : String) : Store × List Effect :=
  match st.get code with
  | none => (st, [])
  | some session =>
    let session₁ := { session with players := session.players.filter (fun p => p.id != playerId) }
    let st₁ := st.set code session₁
    (st₁, broadcast st₁ code)

/-- The `disconnect` handler, given the `(code, playerId)` association stored
on the socket. -/
def disconnectCleanup (st : Store) (code playerId : String) : Store × List Effect :=
  match st.get code with
  | none => (st, [])
  | some session =>
    let st₁ :=
      if playerId == session.hostPlayerId then st
      else st.set code
        { session with players := session.players.filter (fun p => p.id != playerId) }
    (st₁, broadcast st₁ code)

/-- Function `loadSessions` from `fileStore.js`: the parsed backing store, or the empty
mapping when the file is missing or corrupt (`none`). -/
def loadSessions (backing : Option Store) : Store :=
  match backing with
  | none => []
  | some st => st

/-- Constant `TTL = 24 * 60 * 60 * 1000` milliseconds. -/
def TTL : Int := 24 * 60 * 60 * 1000

/-- The startup prune in `server.js`: keep entries with
`Date.now() - createdAt < TTL`. -/
def pruneSessions (st : Store) (now : Int) : Store :=
  st.filter (fun e => decide (now - e.2.createdAt < TTL))

/-- The full load path: `loadSessions()` then the TTL prune. -/
def loadAndPrune (backing : Option Store) (now : Int) : Store :=
  pruneSessions (loadSessions backing) now

/-- One inbound event together with the payload, the `nanoid` draws and the
clock reading it was handled with. -/
inductive Op where
  | create (nickname sessionName rawCode playerId : String) (now : Int)
  | join (code nickname playerId : String)
  | rejoin (code playerId nickname : String)
  | start (code : String)
  | score (code playerId : String) (value : Int)
  | leave (code playerId : String)
  | disconnect (code playerId : String)
deriving Repr, DecidableEq

/-- Dispatch one event to its handler. -/
def applyOp (st : Store) : Op → Store × List Effect
  | Op.create nickname sessionName rawCode playerId now =>
      createSession st nickname sessionName rawCode playerId now
  | Op.join code nickname playerId => joinSession st code nickname playerId
  | Op.rejoin code playerId nickname => rejoinSession st code playerId nickname
  | Op.start code => startSession st code
  | Op.score code playerId value => updateScore st code playerId value
  | Op.leave code playerId => leaveSession st code playerId
  | Op.disconnect code playerId => disconnectCleanup st code playerId

/-- Run a sequence of events, discarding effects. -/
def runOps (st : Store) : List Op → Store
  | [] => st
  | op :: rest => runOps (applyOp st op).1 rest

/-- A `create` event draws a code that is unused in the current store (the
freshness the spec requires of the random code generator); every other event
is unconstrained. -/
def FreshOp (st : Store) : Op → Prop
  | Op.create _ _ rawCode _ _ => st.get (jsToUpper rawCode) = none
  | _ => True

/-- Every `create` in the sequence draws a code fresh for the store at its
point of execution. -/
def FreshRun (st : Store) : List Op → Prop
  | [] => True
  | op :: rest => FreshOp st op ∧ FreshRun (applyOp st op).1 rest

/-! ### Store lemmas -/

theorem Store.get_nil (c : String) : Store.get [] c = none := rfl

theorem Store.get_cons (e : String × Session) (rest : Store) (c : String) :
    Store.get (e :: rest) c = if e.1 = c then some e.2 else Store.get rest c := by
  by_cases h : e.1 = c
  · simp [Store.get, List.find?_cons_of_pos, h]
  · rw [if_neg h]
    unfold Store.get
    rw [List.find?_cons_of_neg _ (by simp [h])]

theorem Store.get_set_self (st : Store) (c : String) (s : Session) :
    (st.set c s).get c = some s := by
  induction st with
  | nil => simp [Store.set, Store.get_cons, Store.get_nil]
  | cons e rest ih =>
    by_cases h : e.1 = c
    · simp [Store.set, h, Store.get_cons]
    · simp only [Store.set]
      rw [if_neg (by simpa using h)]
      rw [Store.get_cons, if_neg h]
      exact ih

theorem Store.get_set_ne (st : Store) (c c₁ : String) (s : Session) (h : c₁ ≠ c) :
    (st.set c s).get c₁ = st.get c₁ := by
  induction st with
  | nil => simp [Store.set, Store.get_cons, Store.get_nil, Ne.symm h]
  | cons e rest ih =>
    by_cases he : e.1 = c
    · subst he
      simp only [Store.set]
      rw [if_pos (by simp)]
      rw [Store.get_cons, Store.get_cons]
      rw [if_neg (by exact fun hc => h hc.symm), if_neg (by exact fun hc => h hc.symm)]
    · simp only [Store.set]
      rw [if_neg (by simpa using he)]
      rw [Store.get_cons, Store.get_cons]
      by_cases he₁ : e.1 = c₁
      · simp [he₁]
      · rw [if_neg he₁, if_neg he₁]
        exact ih

theorem Store.set_eq_of_get (st : Store) (c : String) (s : Session)
    (h : st.get c = some s) : st.set c s = st := by
  induction st with
  | nil => simp [Store.get_nil] at h
  | cons e rest ih =>
    rw [Store.get_cons] at h
    by_cases he : e.1 = c
    · rw [if_pos he] at h
      have : e = (c, s) := by
        cases e
        simp_all
      simp [Store.set, this]
    · rw [if_neg he] at h
      simp only [Store.set]
      rw [if_neg (by simpa using he)]
      rw [ih h]

theorem Store.set_eq_append_of_get_none (st : Store) (c : String) (s : Session)
    (h : st.get c = none) : st.set c s = st ++ [(c, s)] := by
  induction st with
  | nil => simp [Store.set]
  | cons e rest ih =>
    rw [Store.get_cons] at h
    by_cases he : e.1 = c
    · rw [if_pos he] at h
      simp at h
    · rw [if_neg he] at h
      simp only [Store.set]
      rw [if_neg (by simpa using he)]
      simp [ih h]

/-! ### List helper lemmas for first-match update and removal -/

theorem find?_first_match (l₁ l₂ : List Player) (p : Player) (pid : String)
    (h₁ : ∀ q ∈ l₁, q.id ≠ pid) (hp : p.id = pid) :
    (l₁ ++ p :: l₂).find? (fun q => q.id == pid) = some p := by
  induction l₁ with
  | nil => simp [List.find?, hp]
  | cons q rest ih =>
    have hq : q.id ≠ pid := h₁ q (by simp)
    simp only [List.cons_append]
    rw [List.find?_cons_of_neg _ (by simp [hq])]
    exact ih (fun r hr => h₁ r (by simp [hr]))

theorem find?_eq_none_of_absent (l : List Player) (pid : String)
    (h : ∀ q ∈ l, q.id ≠ pid) :
    l.find? (fun q => q.id == pid) = none := by
  rw [List.find?_eq_none]
  intro q hq
  simp [h q hq]

theorem updateFirst_decomp (l₁ l₂ : List Player) (p : Player) (pid : String)
    (f : Player → Player) (h₁ : ∀ q ∈ l₁, q.id ≠ pid) (hp : p.id = pid) :
    updateFirst (l₁ ++ p :: l₂) pid f = l₁ ++ f p :: l₂ := by
  induction l₁ with
  | nil => simp [updateFirst, hp]
  | cons q rest ih =>
    have hq : q.id ≠ pid := h₁ q (by simp)
    simp only [List.cons_append, updateFirst]
    rw [show (q.id == pid) = false by simpa using hq]
    simp [ih (fun r hr => h₁ r (by simp [hr]))]

theorem filter_ne_of_absent (l : List Player) (pid : String)
    (h : ∀ q ∈ l, q.id ≠ pid) :
    l.filter (fun q => q.id != pid) = l := by
  induction l with
  | nil => rfl
  | cons q rest ih =>
    have hq : q.id ≠ pid := h q (by simp)
    simp only [List.filter]
    rw [show (q.id != pid) = true by simpa using hq]
    simp [ih (fun r hr => h r (by simp [hr]))]

theorem filter_ne_decomp (l₁ l₂ : List Player) (p : Player) (pid : String)
    (h₁ : ∀ q ∈ l₁, q.id ≠ pid) (h₂ : ∀ q ∈ l₂, q.id ≠ pid) (hp : p.id = pid) :
    (l₁ ++ p :: l₂).filter (fun q => q.id != pid) = l₁ ++ l₂ := by
  induction l₁ with
  | nil =>
    simp only [List.nil_append, List.filter]
    rw [show (p.id != pid) = false by simpa using hp]
    exact filter_ne_of_absent l₂ pid h₂
  | cons q rest ih =>
    have hq : q.id ≠ pid := h₁ q (by simp)
    simp only [List.cons_append, List.filter]
    rw [show (q.id != pid) = true by simpa using hq]
    simp [ih (fun r hr => h₁ r (by simp [hr]))]

theorem toUpper_not_isLower (c : Char) : (Char.toUpper c).isLower = false := by
  have hdef : Char.toUpper c =
      if c.toNat ≥ 97 ∧ c.toNat ≤ 122 then Char.ofNat (c.toNat - 32) else c := rfl
  rw [hdef]
  by_cases hc : c.toNat ≥ 97 ∧ c.toNat ≤ 122
  · rw [if_pos hc]
    obtain ⟨h₁, h₂⟩ := hc
    have hge : 65 ≤ c.toNat - 32 := by omega
    have hle : c.toNat - 32 ≤ 90 := by omega
    set k := c.toNat - 32 with hk
    interval_cases k <;> decide
  · rw [if_neg hc]
    simp only [Char.isLower]
    have h97 : ((97 : UInt32) ≤ c.val) ↔ 97 ≤ c.toNat := by
      simp [UInt32.le_def, BitVec.le_def, UInt32.toNat, Char.toNat]
    have h122 : (c.val ≤ (122 : UInt32)) ↔ c.toNat ≤ 122 := by
      simp [UInt32.le_def, BitVec.le_def, UInt32.toNat, Char.toNat]
    rw [Bool.and_eq_false_iff]
    rcases Decidable.not_and_iff_or_not.mp hc with h1 | h1
    · left
      simpa [h97] using h1
    · right
      simpa [h122] using h1

/-! ### Concrete fixtures for witnesses -/

/-- A concrete one-player lobby session used by witnesses. -/
def annPlayer : Player :=
  { id := "h1", nickname := "Ann", score := 0, isHost := true }

/-- A concrete lobby session hosted by `annPlayer`. -/
def lobbySession : Session :=
  { code := "ABC123", name := "g", hostPlayerId := "h1",
    players := [annPlayer], createdAt := 0, isActive := false }

/-- The same session after the host started it. -/
def activeSession : Session :=
  { lobbySession with isActive := true }

/-- A store holding only `lobbySession`. -/
def lobbyStore : Store := [("ABC123", lobbySession)]

/-- A store holding only `activeSession`. -/
def activeStore : Store := [("ABC123", activeSession)]

/-- A concrete non-host player. -/
def bobPlayer : Player :=
  { id := "p2", nickname := "Bob", score := 0, isHost := false }

/-- An active session with host `annPlayer` and non-host `bobPlayer`. -/
def twoPlayerSession : Session :=
  { activeSession with players := [annPlayer, bobPlayer] }

/-- A store holding only `twoPlayerSession`. -/
def twoPlayerStore : Store := [("ABC123", twoPlayerSession)]

/-- A session created 25 hours before the reference load time 90000000. -/
def staleSession : Session :=
  { lobbySession with code := "OLD111", createdAt := 90000000 - 25 * 60 * 60 * 1000 }

/-- A session created 23 hours before the reference load time 90000000. -/
def youngSession : Session :=
  { lobbySession with code := "NEW222", createdAt := 90000000 - 23 * 60 * 60 * 1000 }

/-- A backing store holding one stale and one young session. -/
def agedStore : Store := [("OLD111", staleSession), ("NEW222", youngSession)]

/-! ### Claim theorems -/

/-- C1: for every stored session and every `rejoinSession(code, playerId,
nickname)` call where `playerId` matches no entry of that session's players
list, exactly one new player is appended, with `score = 0` and `isHost`
equal to `playerId == hostPlayerId`, regardless of the session's `isActive`
flag (the statement carries no hypothesis on `isActive`). -/
theorem rejoinSession_unknown_appends (st : Store) (code playerId nickname : String)
    (s : Session) (hget : st.get code = some s)
    (habsent : ∀ q ∈ s.players, q.id ≠ playerId) :
    (rejoinSession st code playerId nickname).1.get code =
      some { s with players := s.players ++
        [{ id := playerId, nickname := nickname, score := 0,
           isHost := playerId == s.hostPlayerId }] } := by
  simp only [rejoinSession, hget, find?_eq_none_of_absent s.players playerId habsent]
  exact Store.get_set_self st code _

/-- Witness for C1: in a concrete *active* session, an unknown player who
rejoins is appended with score 0 and a computed host flag. -/
theorem rejoinSession_unknown_appends_witness :
    (rejoinSession activeStore "ABC123" "p2" "Bob").1.get "ABC123" =
      some { activeSession with players := activeSession.players ++
        [{ id := "p2", nickname := "Bob", score := 0,
           isHost := ("p2" == activeSession.hostPlayerId) }] } := by
  exact rejoinSession_unknown_appends activeStore "ABC123" "p2" "Bob"
    activeSession (by rfl) (by decide)

/-- C2: every `joinSession` call against a missing or already active session
returns the store unchanged and emits exactly one error reply to the caller:
no broadcast, no save, no state change. -/
theorem joinSession_rejected_atomic (st : Store) (code nickname playerId : String)
    (h : st.get code = none ∨ ∃ s, st.get code = some s ∧ s.isActive = true) :
    joinSession st code nickname playerId =
      (st, [Effect.callerEmit (CallerMsg.errorMsg "Session not found or already started")]) := by
  rcases h with h | ⟨s, hs, hact⟩
  · simp [joinSession, h]
  · simp [joinSession, hs, hact]

/-- Witness for C2: joining a concrete active session yields only the error
reply and leaves the store exactly as it was. -/
theorem joinSession_rejected_atomic_witness :
    joinSession activeStore "ABC123" "Bob" "p2" =
      (activeStore,
       [Effect.callerEmit (CallerMsg.errorMsg "Session not found or already started")]) := by
  exact joinSession_rejected_atomic activeStore "ABC123" "Bob" "p2"
    (Or.inr ⟨activeSession, by rfl, by rfl⟩)

/-- C5: `startSession` on an existing lobby session sets `isActive := true`
and emits, in order, a save, a room-wide `sessionUpdate` carrying the updated
record, then the distinct room-wide `sessionStarted` signal; on a missing or
already active session it returns the store unchanged with no effects. -/
theorem startSession_spec (st : Store) (code : String) :
    (∀ s, st.get code = some s → s.isActive = false →
      startSession st code =
        (st.set code { s with isActive := true },
         [Effect.save (st.set code { s with isActive := true }),
          Effect.roomEmit code (RoomMsg.sessionUpdate (some { s with isActive := true })),
          Effect.roomEmit code RoomMsg.sessionStarted])) ∧
    (st.get code = none → startSession st code = (st, [])) ∧
    (∀ s, st.get code = some s → s.isActive = true → startSession st code = (st, [])) := by
  refine ⟨fun s hs hact => ?_, fun h => ?_, fun s hs hact => ?_⟩
  · simp [startSession, hs, hact, broadcast, Store.get_set_self]
  · simp [startSession, h]
  · simp [startSession, hs, hact]

/-- Witness for C5: starting the concrete lobby session yields the updated
record and both room notifications in order. -/
theorem startSession_spec_witness :
    startSession lobbyStore "ABC123" =
      ([("ABC123", activeSession)],
       [Effect.save [("ABC123", activeSession)],
        Effect.roomEmit "ABC123" (RoomMsg.sessionUpdate (some activeSession)),
        Effect.roomEmit "ABC123" RoomMsg.sessionStarted]) := by
  have h := (startSession_spec lobbyStore "ABC123").1 lobbySession (by rfl) (by rfl)
  simpa [lobbyStore, Store.set, activeSession] using h

/-- C10: `leaveSession` on an existing session whose players list does not
contain `playerId` leaves the store unchanged, yet still persists the full
store and still fires the room-wide `sessionUpdate` broadcast, with no error
sent to the caller. -/
theorem leaveSession_absent_redundant_broadcast (st : Store) (code playerId : String)
    (s : Session) (hget : st.get code = some s)
    (habsent : ∀ q ∈ s.players, q.id ≠ playerId) :
    leaveSession st code playerId =
      (st, [Effect.save st, Effect.roomEmit code (RoomMsg.sessionUpdate (some s))]) := by
  have hfilter : s.players.filter (fun q => q.id != playerId) = s.players :=
    filter_ne_of_absent s.players playerId habsent
  have hsession : { s with players := s.players.filter (fun q => q.id != playerId) } = s := by
    rw [hfilter]
  simp only [leaveSession, hget, hsession, Store.set_eq_of_get st code s hget, broadcast]

/-- Witness for C10: a concrete leave by a non-member persists and broadcasts
but changes nothing, with no error effect. -/
theorem leaveSession_absent_redundant_broadcast_witness :
    leaveSession lobbyStore "ABC123" "ghost" =
      (lobbyStore,
       [Effect.save lobbyStore,
        Effect.roomEmit "ABC123" (RoomMsg.sessionUpdate (some lobbySession))]) := by
  exact leaveSession_absent_redundant_broadcast lobbyStore "ABC123" "ghost"
    lobbySession (by rfl) (by decide)

/-- C3: for every connection-loss event whose stored `(code, playerId)`
association resolves to an existing session: when `playerId` differs from
`hostPlayerId` exactly the player with that id is removed; when `playerId`
equals `hostPlayerId` the store (hence the players list) is unchanged; and in
both cases the room-wide `sessionUpdate` broadcast fires, even when no player
was removed. -/
theorem disconnect_removes_nonhost_only (st : Store) (code playerId : String)
    (s : Session) (hget : st.get code = some s) :
    (playerId = s.hostPlayerId →
      disconnectCleanup st code playerId =
        (st, [Effect.save st, Effect.roomEmit code (RoomMsg.sessionUpdate (some s))])) ∧
    (∀ l₁ p l₂, playerId ≠ s.hostPlayerId → s.players = l₁ ++ p :: l₂ →
      p.id = playerId → (∀ q ∈ l₁ ++ l₂, q.id ≠ playerId) →
      (disconnectCleanup st code playerId).1.get code = some { s with players := l₁ ++ l₂ }) ∧
    (∃ payload, (disconnectCleanup st code playerId).2 =
      [Effect.save (disconnectCleanup st code playerId).1,
       Effect.roomEmit code (RoomMsg.sessionUpdate payload)]) := by
  refine ⟨fun hhost => ?_, fun l₁ p l₂ hne hsplit hp hothers => ?_, ?_⟩
  · simp [disconnectCleanup, hget, hhost, broadcast]
  · have hl₁ : ∀ q ∈ l₁, q.id ≠ playerId := fun q hq => hothers q (by simp [hq])
    have hl₂ : ∀ q ∈ l₂, q.id ≠ playerId := fun q hq => hothers q (by simp [hq])
    have hfilter := filter_ne_decomp l₁ l₂ p playerId hl₁ hl₂ hp
    simp only [disconnectCleanup, hget]
    rw [if_neg (by simpa using hne)]
    simp only [hsplit, hfilter]
    exact Store.get_set_self st code _
  · simp only [disconnectCleanup, hget]
    by_cases hhost : playerId = s.hostPlayerId
    · rw [if_pos (by simpa using hhost)]
      exact ⟨_, rfl⟩
    · rw [if_neg (by simpa using hhost)]
      exact ⟨_, rfl⟩

/-- Witness for C3: in a concrete two-player session, a non-host disconnect
removes exactly the non-host, a host disconnect changes nothing, and both
fire the broadcast. -/
theorem disconnect_removes_nonhost_only_witness :
    (disconnectCleanup twoPlayerStore "ABC123" "p2").1.get "ABC123" =
      some { twoPlayerSession with players := [annPlayer] } ∧
    disconnectCleanup twoPlayerStore "ABC123" "h1" =
      (twoPlayerStore,
       [Effect.save twoPlayerStore,
        Effect.roomEmit "ABC123" (RoomMsg.sessionUpdate (some twoPlayerSession))]) := by
  refine ⟨?_, ?_⟩
  · have h := (disconnect_removes_nonhost_only twoPlayerStore "ABC123" "p2"
      twoPlayerSession (by rfl)).2.1 [annPlayer] bobPlayer [] (by decide) (by rfl)
      (by rfl) (by decide)
    simpa using h
  · exact (disconnect_removes_nonhost_only twoPlayerStore "ABC123" "h1"
      twoPlayerSession (by rfl)).1 (by rfl)

/-- C6: `updateScore` on an existing active session and an existing player
sets exactly that player's score to the given value, leaving every other
player record unchanged; when the session is missing, inactive, or the player
is unknown, it returns the store unchanged with no effects (no save, no
broadcast). -/
theorem updateScore_sets_exactly_one (st : Store) (code playerId : String) (v : Int) :
    (∀ s l₁ p l₂, st.get code = some s → s.isActive = true →
      s.players = l₁ ++ p :: l₂ → p.id = playerId → (∀ q ∈ l₁, q.id ≠ playerId) →
      (updateScore st code playerId v).1.get code =
        some { s with players := l₁ ++ { p with score := v } :: l₂ }) ∧
    (∀ s, st.get code = some s → s.isActive = false →
      updateScore st code playerId v = (st, [])) ∧
    (st.get code = none → updateScore st code playerId v = (st, [])) ∧
    (∀ s, st.get code = some s → s.isActive = true →
      (∀ q ∈ s.players, q.id ≠ playerId) →
      updateScore st code playerId v = (st, [])) := by
  refine ⟨fun s l₁ p l₂ hget hact hsplit hp hfirst => ?_, fun s hget hact => ?_,
    fun h => ?_, fun s hget hact habsent => ?_⟩
  · have hfind := find?_first_match l₁ l₂ p playerId hfirst hp
    have hupd := updateFirst_decomp l₁ l₂ p playerId
      (fun q => { q with score := v }) hfirst hp
    simp only [updateScore, hget, hact, if_true, hsplit, hfind, hupd]
    exact Store.get_set_self st code _
  · simp [updateScore, hget, hact]
  · simp [updateScore, h]
  · simp [updateScore, hget, hact, find?_eq_none_of_absent s.players playerId habsent]

/-- Witness for C6: in a concrete active two-player session, updating the
non-host's score changes only that entry; against the inactive variant the
same call is a no-op. -/
theorem updateScore_sets_exactly_one_witness :
    (updateScore twoPlayerStore "ABC123" "p2" 7).1.get "ABC123" =
      some { twoPlayerSession with players := [annPlayer, { bobPlayer with score := 7 }] } ∧
    updateScore lobbyStore "ABC123" "h1" 7 = (lobbyStore, []) := by
  refine ⟨?_, ?_⟩
  · have h := (updateScore_sets_exactly_one twoPlayerStore "ABC123" "p2" 7).1
      twoPlayerSession [annPlayer] bobPlayer [] (by rfl) (by rfl) (by rfl)
      (by rfl) (by decide)
    simpa using h
  · exact (updateScore_sets_exactly_one lobbyStore "ABC123" "h1" 7).2.1
      lobbySession (by rfl) (by rfl)

/-- C7: `rejoinSession` with a `playerId` already present leaves the number
of players and every non-matching player record unchanged, keeps the matching
player's id and score, and only overwrites its `nickname` with the supplied
value and recomputes `isHost` as `playerId == hostPlayerId`. -/
theorem rejoinSession_known_refresh (st : Store) (code playerId nickname : String)
    (s : Session) (l₁ : List Player) (p : Player) (l₂ : List Player)
    (hget : st.get code = some s) (hsplit : s.players = l₁ ++ p :: l₂)
    (hfirst : ∀ q ∈ l₁, q.id ≠ playerId) (hp : p.id = playerId) :
    (rejoinSession st code playerId nickname).1.get code =
      some { s with players := l₁ ++
        { p with nickname := nickname, isHost := playerId == s.hostPlayerId } :: l₂ } ∧
    (l₁ ++ { p with nickname := nickname, isHost := playerId == s.hostPlayerId } :: l₂).length = s.players.length := by
  have hfind := find?_first_match l₁ l₂ p playerId hfirst hp
  have hupd := updateFirst_decomp l₁ l₂ p playerId
    (fun q => { q with isHost := playerId == s.hostPlayerId, nickname := nickname })
    hfirst hp
  refine ⟨?_, by simp [hsplit]⟩
  simp only [rejoinSession, hget, hsplit, hfind, hupd]
  exact Store.get_set_self st code _

/-- Witness for C7: the host of the concrete two-player session rejoins with
a new nickname; the roster length and Bob's record are untouched, the host's
score survives, only nickname and the recomputed host flag change. -/
theorem rejoinSession_known_refresh_witness :
    (rejoinSession twoPlayerStore "ABC123" "h1" "Anna").1.get "ABC123" =
      some { twoPlayerSession with players :=
        [{ annPlayer with nickname := "Anna", isHost := ("h1" == "h1") }, bobPlayer] } ∧
    ([] ++ { annPlayer with nickname := "Anna", isHost := ("h1" == twoPlayerSession.hostPlayerId) } :: [bobPlayer]).length = twoPlayerSession.players.length := by
  have h := rejoinSession_known_refresh twoPlayerStore "ABC123" "h1" "Anna"
    twoPlayerSession [] annPlayer [bobPlayer] (by rfl) (by rfl) (by decide) (by rfl)
  exact ⟨by simpa using h.1, h.2⟩

/-- C4: the load path returns the last-persisted mapping filtered to the
entries whose age `now - createdAt` is below the 24h TTL: an entry aged 25
hours is absent, one aged 23 hours is present, and a missing or corrupt
backing store (`none`) yields the empty mapping. -/
theorem loadAndPrune_ttl_filter (bs : Store) (now : Int) (e : String × Session) :
    loadAndPrune none now = [] ∧
    (e ∈ loadAndPrune (some bs) now ↔ e ∈ bs ∧ now - e.2.createdAt < TTL) ∧
    (now - e.2.createdAt = 25 * 60 * 60 * 1000 → e ∉ loadAndPrune (some bs) now) ∧
    (e ∈ bs → now - e.2.createdAt = 23 * 60 * 60 * 1000 →
      e ∈ loadAndPrune (some bs) now) := by
  refine ⟨rfl, ?_, fun h25 hmem => ?_, fun hmem h23 => ?_⟩
  · simp [loadAndPrune, loadSessions, pruneSessions, List.mem_filter]
  · have : ¬ (now - e.2.createdAt < TTL) := by
      rw [h25]
      decide
    have hch := (by simpa [loadAndPrune, loadSessions, pruneSessions,
      List.mem_filter] using hmem : e ∈ bs ∧ now - e.2.createdAt < TTL)
    exact this hch.2
  · simp only [loadAndPrune, loadSessions, pruneSessions, List.mem_filter]
    refine ⟨hmem, ?_⟩
    rw [h23]
    decide

/-- Witness for C4: a concrete backing store holding a 25-hour-old and a
23-hour-old session loads to a mapping containing exactly the younger one. -/
theorem loadAndPrune_ttl_filter_witness :
    loadAndPrune none 90000000 = [] ∧
    ("OLD111", staleSession) ∉ loadAndPrune (some agedStore) 90000000 ∧
    ("NEW222", youngSession) ∈ loadAndPrune (some agedStore) 90000000 := by
  refine ⟨(loadAndPrune_ttl_filter agedStore 90000000 ("OLD111", staleSession)).1, ?_, ?_⟩
  · exact (loadAndPrune_ttl_filter agedStore 90000000 ("OLD111", staleSession)).2.2.1
      (by decide) 
  · exact (loadAndPrune_ttl_filter agedStore 90000000 ("NEW222", youngSession)).2.2.2
      (by decide) (by decide)

/-- C8: `createSession` with a fresh 6-character draw always succeeds: the
stored record carries the uppercased 6-character code (unique in the store),
`hostPlayerId` equal to the fresh participant id, exactly one player (the
creator) with `isHost = true` and `score = 0`, `isActive = false` and
`createdAt = now`. -/
theorem createSession_builds_singleton (st : Store)
    (nickname sessionName rawCode playerId : String) (now : Int)
    (hlen : rawCode.length = 6) (hfresh : st.get (jsToUpper rawCode) = none) :
    (createSession st nickname sessionName rawCode playerId now).1.get (jsToUpper rawCode) =
      some { code := jsToUpper rawCode, name := sessionName, hostPlayerId := playerId, players := [{ id := playerId, nickname := nickname, score := 0, isHost := true }], createdAt := now, isActive := false } ∧
    (jsToUpper rawCode).length = 6 ∧
    (∀ c ∈ (jsToUpper rawCode).data, c.isLower = false) ∧
    (createSession st nickname sessionName rawCode playerId now).1.countP
      (fun e => e.1 == jsToUpper rawCode) = 1 := by
  refine ⟨?_, ?_, ?_, ?_⟩
  · simp only [createSession]
    exact Store.get_set_self st _ _
  · have h1 : (jsToUpper rawCode).length = (rawCode.data.map Char.toUpper).length := rfl
    rw [h1, List.length_map]
    exact hlen
  · intro c hc
    simp only [jsToUpper, List.mem_map] at hc
    obtain ⟨a, _, ha⟩ := hc
    rw [← ha]
    exact toUpper_not_isLower a
  · have hfind : st.find? (fun e => e.1 == jsToUpper rawCode) = none := by
      cases hcase : st.find? (fun e => e.1 == jsToUpper rawCode) with
      | none => rfl
      | some e => simp [Store.get, hcase] at hfresh
    have habs : ∀ e ∈ st, ¬ (e.1 == jsToUpper rawCode) = true :=
      List.find?_eq_none.mp hfind
    simp only [createSession]
    rw [Store.set_eq_append_of_get_none st _ _ hfresh]
    rw [List.countP_append]
    rw [List.countP_eq_zero.mpr habs]
    simp

/-- Witness for C8: creating a session on the empty store from the raw draw
"ab12-z" yields code "AB12-Z" with a single host player. -/
theorem createSession_builds_singleton_witness :
    (createSession [] "Ann" "Game1" "ab12-z" "h1" 0).1.get (jsToUpper "ab12-z") =
      some { code := jsToUpper "ab12-z", name := "Game1", hostPlayerId := "h1", players := [{ id := "h1", nickname := "Ann", score := 0, isHost := true }], createdAt := 0, isActive := false } ∧
    (jsToUpper "ab12-z").length = 6 ∧
    (∀ c ∈ (jsToUpper "ab12-z").data, c.isLower = false) ∧
    (createSession [] "Ann" "Game1" "ab12-z" "h1" 0).1.countP
      (fun e => e.1 == jsToUpper "ab12-z") = 1 := by
  exact createSession_builds_singleton [] "Ann" "Game1" "ab12-z" "h1" 0 (by decide) (by rfl)

/-- Helper for C9: reading another code after a `Store.set` preserves an
active session. -/
theorem get_after_set_other (st : Store) (c code : String) (x s : Session)
    (hc : code ≠ c) (hget : st.get code = some s) (hact : s.isActive = true) :
    ∃ s₁, (st.set c x).get code = some s₁ ∧ s₁.isActive = true :=
  ⟨s, by rw [Store.get_set_ne st c code x hc]; exact hget, hact⟩

/-- Helper for C9: one handled event preserves a session's `isActive = true`
flag, provided a `create` event only ever draws a code unused in the current
store. -/
theorem applyOp_preserves_isActive (st : Store) (op : Op) (code : String) (s : Session)
    (hfresh : FreshOp st op) (hget : st.get code = some s) (hact : s.isActive = true) :
    ∃ s₁, (applyOp st op).1.get code = some s₁ ∧ s₁.isActive = true := by
  cases op with
  | create nickname sessionName rawCode playerId now =>
    simp only [FreshOp] at hfresh
    have hne : code ≠ jsToUpper rawCode := by
      intro h
      rw [h, hfresh] at hget
      exact Option.noConfusion hget
    refine ⟨s, ?_, hact⟩
    simp only [applyOp, createSession]
    rw [Store.get_set_ne st (jsToUpper rawCode) code _ hne]
    exact hget
  | join code₁ nickname playerId =>
    by_cases hc : code₁ = code
    · subst hc
      exact ⟨s, by simp [applyOp, joinSession, hget, hact], hact⟩
    · cases hst : st.get code₁ with
      | none =>
        exact ⟨s, by simp only [applyOp, joinSession, hst]; exact hget, hact⟩
      | some s₁ =>
        by_cases hactive : s₁.isActive = true
        · exact ⟨s, by simp only [applyOp, joinSession, hst, hactive, if_true]; exact hget, hact⟩
        · simp only [applyOp, joinSession, hst, hactive, if_false]
          exact get_after_set_other st code₁ code _ s (fun h => hc h.symm) hget hact
  | rejoin code₁ playerId nickname =>
    by_cases hc : code₁ = code
    · subst hc
      cases hfind : s.players.find? (fun p => p.id == playerId) with
      | none =>
        simp only [applyOp, rejoinSession, hget, hfind]
        exact ⟨_, Store.get_set_self st code₁ _, by simp [hact]⟩
      | some found =>
        simp only [applyOp, rejoinSession, hget, hfind]
        exact ⟨_, Store.get_set_self st code₁ _, by simp [hact]⟩
    · cases hst : st.get code₁ with
      | none =>
        exact ⟨s, by simp only [applyOp, rejoinSession, hst]; exact hget, hact⟩
      | some s₁ =>
        cases hfind : s₁.players.find? (fun p => p.id == playerId) with
        | none =>
          simp only [applyOp, rejoinSession, hst, hfind]
          exact get_after_set_other st code₁ code _ s (fun h => hc h.symm) hget hact
        | some found =>
          simp only [applyOp, rejoinSession, hst, hfind]
          exact get_after_set_other st code₁ code _ s (fun h => hc h.symm) hget hact
  | start code₁ =>
    by_cases hc : code₁ = code
    · subst hc
      exact ⟨s, by simp [applyOp, startSession, hget, hact], hact⟩
    · cases hst : st.get code₁ with
      | none =>
        exact ⟨s, by simp only [applyOp, startSession, hst]; exact hget, hact⟩
      | some s₁ =>
        by_cases hactive : s₁.isActive = true
        · exact ⟨s, by simp only [applyOp, startSession, hst, hactive, if_true]; exact hget, hact⟩
        · simp only [applyOp, startSession, hst, hactive, if_false]
          exact get_after_set_other st code₁ code _ s (fun h => hc h.symm) hget hact
  | score code₁ playerId v =>
    by_cases hc : code₁ = code
    · subst hc
      cases hfind : s.players.find? (fun p => p.id == playerId) with
      | none =>
        exact ⟨s, by simp [applyOp, updateScore, hget, hact, hfind], hact⟩
      | some found =>
        simp only [applyOp, updateScore, hget, hact, if_true, hfind]
        exact ⟨_, Store.get_set_self st code₁ _, by simp [hact]⟩
    · cases hst : st.get code₁ with
      | none =>
        exact ⟨s, by simp only [applyOp, updateScore, hst]; exact hget, hact⟩
      | some s₁ =>
        by_cases hactive : s₁.isActive = true
        · cases hfind : s₁.players.find? (fun p => p.id == playerId) with
          | none =>
            exact ⟨s,
              by simp only [applyOp, updateScore, hst, hactive, if_true, hfind]; exact hget, hact⟩
          | some found =>
            simp only [applyOp, updateScore, hst, hactive, if_true, hfind]
            exact get_after_set_other st code₁ code _ s (fun h => hc h.symm) hget hact
        · exact ⟨s,
            by simp only [applyOp, updateScore, hst, hactive, if_false]; exact hget, hact⟩
  | leave code₁ playerId =>
    by_cases hc : code₁ = code
    · subst hc
      simp only [applyOp, leaveSession, hget]
      exact ⟨_, Store.get_set_self st code₁ _, by simp [hact]⟩
    · cases hst : st.get code₁ with
      | none =>
        exact ⟨s, by simp only [applyOp, leaveSession, hst]; exact hget, hact⟩
      | some s₁ =>
        simp only [applyOp, leaveSession, hst]
        exact get_after_set_other st code₁ code _ s (fun h => hc h.symm) hget hact
  | disconnect code₁ playerId =>
    by_cases hc : code₁ = code
    · subst hc
      by_cases hhost : playerId = s.hostPlayerId
      · refine ⟨s, ?_, hact⟩
        simp only [applyOp, disconnectCleanup, hget]
        rw [if_pos (by simpa using hhost)]
        exact hget
      · simp only [applyOp, disconnectCleanup, hget]
        rw [if_neg (by simpa using hhost)]
        exact ⟨_, Store.get_set_self st code₁ _, by simp [hact]⟩
    · cases hst : st.get code₁ with
      | none =>
        exact ⟨s, by simp only [applyOp, disconnectCleanup, hst]; exact hget, hact⟩
      | some s₁ =>
        by_cases hhost : playerId = s₁.hostPlayerId
        · refine ⟨s, ?_, hact⟩
          simp only [applyOp, disconnectCleanup, hst]
          rw [if_pos (by simpa using hhost)]
          exact hget
        · simp only [applyOp, disconnectCleanup, hst]
          rw [if_neg (by simpa using hhost)]
          exact get_after_set_other st code₁ code _ s (fun h => hc h.symm) hget hact

/-- C9: over every sequence of handled events in which each `createSession`
draws an unused code, a session whose `isActive` flag is `true` keeps an
entry under its code with `isActive = true`: no event ever transitions a
session from active back to lobby. -/
theorem isActive_never_reverts (ops : List Op) (st : Store) (code : String) (s : Session)
    (hfresh : FreshRun st ops) (hget : st.get code = some s) (hact : s.isActive = true) :
    ∃ s₁, (runOps st ops).get code = some s₁ ∧ s₁.isActive = true := by
  induction ops generalizing st s with
  | nil => exact ⟨s, hget, hact⟩
  | cons op rest ih =>
    obtain ⟨hf, hfr⟩ := hfresh
    obtain ⟨s₁, hget₁, hact₁⟩ := applyOp_preserves_isActive st op code s hf hget hact
    exact ih (applyOp st op).1 s₁ hfr hget₁ hact₁

/-- Witness for C9: running a concrete sequence of every kind of event over
the active two-player session leaves "ABC123" active. -/
theorem isActive_never_reverts_witness :
    ∃ s₁, (runOps twoPlayerStore
      [Op.join "ABC123" "Eve" "p3", Op.rejoin "ABC123" "p4" "Dan",
       Op.start "ABC123", Op.score "ABC123" "p2" 5, Op.leave "ABC123" "p2",
       Op.disconnect "ABC123" "p4",
       Op.create "Cal" "Game2" "zz99yy" "h9" 7]).get "ABC123" = some s₁ ∧
      s₁.isActive = true := by
  refine isActive_never_reverts _ twoPlayerStore "ABC123" twoPlayerSession
    ?_ (by rfl) (by rfl)
  simp only [FreshRun, FreshOp, true_and, and_true]
  decide

end Quiz